import Mathlib

/-!
Shallow embedding of the analytics query engine of the sentry-dashboard
repository (src/utils/database.py and src/app.py).

The base relation `customer_monthly_metrics` is modelled as a list of rows.
Calendar months are modelled as natural month indices (`month_date`,
`account_created_date`); date arithmetic in the source (`AGE`, date
subtraction) therefore works in month units here.  SQL `NULL` is modelled by
`Option`, SQL aggregate queries by list traversals, and `ORDER BY` by a
stable insertion sort.  A query that can raise a runtime error (division by
zero) is modelled as returning `Option`, with `none` for the error.
-/

namespace Sentry

/-- The `plan` column: categorical tier {Free, Trial, Low, Middle, Top}. -/
inductive Plan
  | Free
  | Trial
  | Low
  | Middle
  | Top
deriving DecidableEq

/-- The tier rank
`CASE plan WHEN 'Free' THEN 1 WHEN 'Trial' THEN 2 WHEN 'Low' THEN 3 WHEN 'Middle' THEN 4 WHEN 'Top' THEN 5 END`
that the source queries use for rank comparisons and plan-sorted output
(src/utils/database.py, e.g. lines 66-72, 498-504). -/
def planRank : Plan → Nat
  | .Free => 1
  | .Trial => 2
  | .Low => 3
  | .Middle => 4
  | .Top => 5

/-- Position of the plan's SQL text in lexicographic (text collation) order:
'Free' < 'Low' < 'Middle' < 'Top' < 'Trial'.  PostgreSQL `MIN(plan)` /
`MAX(plan)` on the text column compare in this order, not in tier order. -/
def planAlphaRank : Plan → Nat
  | .Free => 0
  | .Low => 1
  | .Middle => 2
  | .Top => 3
  | .Trial => 4

/-- Larger of two plans in text (alphabetical) order. -/
def alphaMax (p q : Plan) : Plan := if planAlphaRank p ≤ planAlphaRank q then q else p

/-- Smaller of two plans in text (alphabetical) order. -/
def alphaMin (p q : Plan) : Plan := if planAlphaRank q ≤ planAlphaRank p then q else p

/-- SQL `MAX(plan)` over a group (text maximum, `none` on the empty group). -/
def sqlMaxPlan : List Plan → Option Plan
  | [] => none
  | p :: l =>
    match sqlMaxPlan l with
    | none => some p
    | some q => some (alphaMax p q)

/-- SQL `MIN(plan)` over a group (text minimum, `none` on the empty group). -/
def sqlMinPlan : List Plan → Option Plan
  | [] => none
  | p :: l =>
    match sqlMinPlan l with
    | none => some p
    | some q => some (alphaMin p q)

/-- One row of `customer_monthly_metrics` (§3 of the spec): one snapshot per
customer per month.  `id` is the customer id; monetary amounts are rationals;
usage counters are naturals; nullable demographics are `Option`. -/
structure Row where
  id : Nat
  month_date : Nat
  is_active : Bool
  plan : Plan
  annual_recurring_revenue : Rat
  events_daily : Nat
  events_28d : Nat
  account_created_date : Nat
  country : Option String
  industry : Option String
deriving DecidableEq

/-- The base table: a list of snapshot rows. -/
abbrev Table := List Row

/-- Maximum of a list of naturals, `none` on the empty list (SQL `MAX`). -/
def listMaxNat : List Nat → Option Nat
  | [] => none
  | a :: l =>
    match listMaxNat l with
    | none => some a
    | some m => some (max a m)

/-- Minimum of a list of naturals, `none` on the empty list (SQL `MIN`). -/
def listMinNat : List Nat → Option Nat
  | [] => none
  | a :: l =>
    match listMinNat l with
    | none => some a
    | some m => some (min a m)

/-- Insert into a list sorted by the boolean order `le` (kept stable). -/
def insertOrd (le : α → α → Bool) (a : α) : List α → List α
  | [] => [a]
  | b :: l => if le a b then a :: b :: l else b :: insertOrd le a l

/-- Stable insertion sort by the boolean order `le`; models SQL `ORDER BY`. -/
def sortOrd (le : α → α → Bool) : List α → List α
  | [] => []
  | a :: l => insertOrd le a (sortOrd le l)

/-- Floor of a rational (computable; equals `Int.floor`, see `ratFloor_eq_floor`). -/
def ratFloor (x : Rat) : Int := x.num / (x.den : Int)

/-- PostgreSQL `ROUND(x, d)` on `numeric`: round to `d` decimal digits, halves
away from zero. -/
def pgRound (x : Rat) (d : Nat) : Rat :=
  if 0 ≤ x.num then (ratFloor (x * (((10 : Nat) ^ d : Nat) : Rat) + 1 / 2) : Rat) /
    (((10 : Nat) ^ d : Nat) : Rat)
  else -((ratFloor (-x * (((10 : Nat) ^ d : Nat) : Rat) + 1 / 2) : Rat) /
    (((10 : Nat) ^ d : Nat) : Rat))

/-- A monetary value exact in cents: `x * 100` is an integer. -/
def centValued (x : Rat) : Prop := ∃ k : Int, x * 100 = (k : Rat)

/-- SQL `SUM` aggregate: `NULL` (`none`) over an empty group. -/
def sqlSum (l : List Rat) : Option Rat := if l.isEmpty then none else some l.sum

/-- SQL `AVG` aggregate: `NULL` (`none`) over an empty group. -/
def sqlAvg (l : List Rat) : Option Rat :=
  if l.isEmpty then none else some (l.sum / (l.length : Rat))

/-- Embeds `COUNT(DISTINCT id)` over a list of rows. -/
def uniqueIds (l : Table) : Nat := (l.map (·.id)).dedup.length

/-- All rows of month `m`. -/
def rowsOfMonth (t : Table) (m : Nat) : Table := t.filter (fun r => decide (r.month_date = m))

/-- The active rows of month `m`. -/
def activeRowsOfMonth (t : Table) (m : Nat) : Table := (rowsOfMonth t m).filter (·.is_active)

/-- The distinct `month_date` values, ascending (`GROUP BY month_date ORDER BY month_date`). -/
def monthsAsc (t : Table) : List Nat :=
  sortOrd (fun a b => decide (a ≤ b)) ((t.map (·.month_date)).dedup)

/-- The distinct `month_date` values, descending. -/
def monthsDesc (t : Table) : List Nat :=
  sortOrd (fun a b => decide (b ≤ a)) ((t.map (·.month_date)).dedup)

/-- Embeds `SELECT DISTINCT month_date ... ORDER BY month_date DESC LIMIT k`:
the `k` most recent distinct months. -/
def recentMonths (k : Nat) (t : Table) : List Nat := (monthsDesc t).take k

/-- Embeds `SELECT MAX(month_date) FROM customer_monthly_metrics` (the `latest_month` CTE). -/
def maxMonth (t : Table) : Option Nat := listMaxNat (t.map (·.month_date))

/-- The latest month strictly before `maxMonth` (the `prev_month` CTE of
`get_latest_snapshot`). -/
def prevMonthDate (t : Table) : Option Nat :=
  match maxMonth t with
  | none => none
  | some m => listMaxNat ((t.map (·.month_date)).filter (fun d => decide (d < m)))

/-- Rows of the latest month with `is_active = TRUE`. -/
def latestActiveRows (t : Table) : Table :=
  t.filter (fun r => decide (some r.month_date = maxMonth t) && r.is_active)

/-- Rows of the previous month with `is_active = TRUE`. -/
def prevActiveRows (t : Table) : Table :=
  t.filter (fun r => decide (some r.month_date = prevMonthDate t) && r.is_active)

/-- Output row of `get_monthly_metrics` (src/utils/database.py lines 35-50). -/
structure MonthlyMetricsRow where
  month_date : Nat
  active_customers : Nat
  total_customers : Nat
  total_arr : Rat
  avg_arr : Option Rat
  total_events_28d : Rat
  avg_events_28d : Option Rat
deriving DecidableEq

/-- The `get_monthly_metrics` aggregates for month `m`.
`SUM(CASE WHEN is_active THEN x ELSE 0 END)` maps inactive rows to 0;
`AVG(CASE WHEN is_active THEN x END)` averages over the active rows only
(`NULL` when the month has no active row);
`COUNT(DISTINCT CASE WHEN is_active THEN id END)` counts distinct active ids. -/
def monthlyMetricsRow (t : Table) (m : Nat) : MonthlyMetricsRow :=
  { month_date := m
    active_customers := uniqueIds (activeRowsOfMonth t m)
    total_customers := uniqueIds (rowsOfMonth t m)
    total_arr := pgRound ((rowsOfMonth t m).map
      (fun r => if r.is_active then r.annual_recurring_revenue else 0)).sum 2
    avg_arr := (sqlAvg ((activeRowsOfMonth t m).map (·.annual_recurring_revenue))).map
      (pgRound · 2)
    total_events_28d := pgRound ((rowsOfMonth t m).map
      (fun r => if r.is_active then (r.events_28d : Rat) else 0)).sum 0
    avg_events_28d := (sqlAvg ((activeRowsOfMonth t m).map (fun r => (r.events_28d : Rat)))).map
      (pgRound · 0) }

/-- Embeds `get_monthly_metrics` (src/utils/database.py lines 35-50): monthly summary,
grouped by `month_date`, ascending. -/
def get_monthly_metrics (t : Table) : List MonthlyMetricsRow :=
  (monthsAsc t).map (monthlyMetricsRow t)

/-- Output row of `get_arr_by_plan` (src/utils/database.py lines 53-74). -/
structure ArrByPlanRow where
  month_date : Nat
  plan : Plan
  customers : Nat
  total_arr : Rat
  avg_arr : Rat
deriving DecidableEq

/-- The fixed plan tier order used by the `ORDER BY ... CASE plan` clauses. -/
def planOrder : List Plan := [.Free, .Trial, .Low, .Middle, .Top]

/-- Active rows of month `m` on plan `p` (one `GROUP BY month_date, plan` group). -/
def planRowsOfMonth (t : Table) (m : Nat) (p : Plan) : Table :=
  (activeRowsOfMonth t m).filter (fun r => decide (r.plan = p))

/-- One `get_arr_by_plan` output row: the aggregates of the `(m, p)` group. -/
def arrByPlanRowOf (t : Table) (m : Nat) (p : Plan) : ArrByPlanRow :=
  { month_date := m
    plan := p
    customers := uniqueIds (planRowsOfMonth t m p)
    total_arr := pgRound ((planRowsOfMonth t m p).map (·.annual_recurring_revenue)).sum 2
    avg_arr := pgRound (((planRowsOfMonth t m p).map (·.annual_recurring_revenue)).sum /
      ((planRowsOfMonth t m p).length : Rat)) 2 }

/-- The `get_arr_by_plan` output rows for month `m`: one row per plan with at
least one active row, in tier-rank order. -/
def arrByPlanMonth (t : Table) (m : Nat) : List ArrByPlanRow :=
  (planOrder.filter (fun p => !(planRowsOfMonth t m p).isEmpty)).map (arrByPlanRowOf t m)

/-- Embeds `get_arr_by_plan` (src/utils/database.py lines 53-74): monthly ARR by plan,
restricted to `is_active`, ordered by `(month_date, tier rank)`. -/
def get_arr_by_plan (t : Table) : List ArrByPlanRow :=
  (monthsAsc t).flatMap (arrByPlanMonth t)

/-- Rows of the same customer strictly before `r` in time. -/
def priorRows (t : Table) (r : Row) : Table :=
  t.filter (fun s => decide (s.id = r.id) && decide (s.month_date < r.month_date))

/-- The row with the greatest `month_date` in a list (`none` on the empty
list); among equal months the later list entry wins. -/
def latestRow : Table → Option Row
  | [] => none
  | s :: l =>
    match latestRow l with
    | none => some s
    | some m => if m.month_date < s.month_date then some s else some m

/-- Embeds `LAG(is_active) OVER (PARTITION BY id ORDER BY month_date)` evaluated at
row `r`: the activity flag of the customer's immediately preceding row, i.e.
of the prior row with the greatest `month_date` (unique under the table
invariant that `(id, month_date)` is a key); `NULL` (`none`) when the
customer has no earlier row. -/
def lagActive (t : Table) (r : Row) : Option Bool :=
  (latestRow (priorRows t r)).map (·.is_active)

/-- Output row of `get_churn_metrics` (src/utils/database.py lines 99-123). -/
structure ChurnRow where
  month_date : Nat
  prev_month_active_count : Nat
  churned_count : Nat
  churn_rate_pct : Option Rat
deriving DecidableEq

/-- The rows surviving `WHERE prev_month_active IS NOT NULL`. -/
def churnStatusRows (t : Table) : Table := t.filter (fun r => (lagActive t r).isSome)

/-- The status rows of month `m` that enter the `GROUP BY month_date` group. -/
def churnMonthRows (t : Table) (m : Nat) : Table :=
  (churnStatusRows t).filter (fun r => decide (r.month_date = m))

/-- Embeds `COUNT(CASE WHEN prev_month_active THEN 1 END)` for month `m`. -/
def churnPrior (t : Table) (m : Nat) : Nat :=
  ((churnMonthRows t m).filter (fun r => decide (lagActive t r = some true))).length

/-- Embeds `COUNT(CASE WHEN prev_month_active AND NOT is_active THEN 1 END)` for month `m`. -/
def churnChurned (t : Table) (m : Nat) : Nat :=
  ((churnMonthRows t m).filter
    (fun r => decide (lagActive t r = some true) && !r.is_active)).length

/-- The `get_churn_metrics` aggregates for month `m`; the rate is
`ROUND(100.0 * churned / NULLIF(prior, 0), 2)` (`NULL` when `prior = 0`). -/
def churnRowOfMonth (t : Table) (m : Nat) : ChurnRow :=
  { month_date := m
    prev_month_active_count := churnPrior t m
    churned_count := churnChurned t m
    churn_rate_pct :=
      if churnPrior t m = 0 then none
      else some (pgRound (100 * (churnChurned t m : Rat) / (churnPrior t m : Rat)) 2) }

/-- Embeds `get_churn_metrics` (src/utils/database.py lines 99-123): monthly churn,
grouped over the rows that have a previous-row status, ascending by month. -/
def get_churn_metrics (t : Table) : List ChurnRow :=
  (sortOrd (fun a b => decide (a ≤ b)) (((churnStatusRows t).map (·.month_date)).dedup)).map
    (churnRowOfMonth t)

/-- Output row of `get_revenue_by_geography` (src/utils/database.py lines 175-194). -/
structure GeoRow where
  country : String
  unique_customers : Nat
  total_arr : Rat
deriving DecidableEq

/-- Embeds `country IS NOT NULL AND country != ''`. -/
def hasCountry (r : Row) : Bool :=
  match r.country with
  | some c => decide (¬ c = "")
  | none => false

/-- The rows that qualify for `get_revenue_by_geography`: latest month, active,
with a present non-empty country. -/
def geoQual (t : Table) : Table := (latestActiveRows t).filter hasCountry

/-- The distinct countries appearing among the qualifying rows. -/
def geoCountries (t : Table) : List String := ((geoQual t).filterMap (·.country)).dedup

/-- The qualifying rows of one country's group. -/
def geoGroup (t : Table) (c : String) : Table :=
  (geoQual t).filter (fun r => decide (r.country = some c))

/-- The `GROUP BY country` aggregates for one country. -/
def geoRowOf (t : Table) (c : String) : GeoRow :=
  { country := c
    unique_customers := uniqueIds (geoGroup t c)
    total_arr := pgRound (((geoGroup t c).map (·.annual_recurring_revenue)).sum) 2 }

/-- Embeds `get_revenue_by_geography` (src/utils/database.py lines 175-194): latest
month, active, non-missing country, grouped by country, `ORDER BY total_arr DESC`. -/
def get_revenue_by_geography (t : Table) : List GeoRow :=
  sortOrd (fun a b => decide (b.total_arr ≤ a.total_arr)) ((geoCountries t).map (geoRowOf t))

/-- Output row of `get_conversion_funnel` (src/utils/database.py lines 220-238). -/
structure FunnelRow where
  total_users : Nat
  converted_users : Nat
  conversion_rate_pct : Rat
  avg_days_to_convert : Option Rat
deriving DecidableEq

/-- The distinct customer ids of the table (`GROUP BY id`). -/
def custIds (t : Table) : List Nat := (t.map (·.id)).dedup

/-- All rows of customer `i`. -/
def rowsOfCustomer (t : Table) (i : Nat) : Table := t.filter (fun r => decide (r.id = i))

/-- Embeds `MIN(month_date)` of a customer: the first snapshot month. -/
def firstMonth (t : Table) (i : Nat) : Option Nat :=
  listMinNat ((rowsOfCustomer t i).map (·.month_date))

/-- Embeds `MIN(CASE WHEN annual_recurring_revenue > 0 THEN month_date END)`:
the first paid month, `NULL` if the customer never paid. -/
def firstPaidMonth (t : Table) (i : Nat) : Option Nat :=
  listMinNat (((rowsOfCustomer t i).filter
    (fun r => decide (0 < r.annual_recurring_revenue))).map (·.month_date))

/-- Embeds `first_paid_month - first_month` over the converters (month units here,
since months are modelled as indices). -/
def convertGaps (t : Table) : List Rat :=
  (custIds t).filterMap (fun i =>
    match firstPaidMonth t i, firstMonth t i with
    | some fp, some fm => some ((fp : Rat) - (fm : Rat))
    | _, _ => none)

/-- Embeds `COUNT(*)` over the `customer_journey` CTE: the number of distinct customers. -/
def funnelTotal (t : Table) : Nat := (custIds t).length

/-- Embeds `COUNT(first_paid_month)`: the number of customers that ever paid. -/
def funnelConverted (t : Table) : Nat :=
  ((custIds t).filter (fun i => (firstPaidMonth t i).isSome)).length

/-- Embeds `get_conversion_funnel` (src/utils/database.py lines 220-238).  The
`conversion_rate_pct` column divides by `COUNT(*)` with no `NULLIF` guard, so
on an empty table PostgreSQL raises `division by zero`; the error is modelled
as `none`. -/
def get_conversion_funnel (t : Table) : Option FunnelRow :=
  if funnelTotal t = 0 then none
  else some
    { total_users := funnelTotal t
      converted_users := funnelConverted t
      conversion_rate_pct := pgRound (100 * (funnelConverted t : Rat) / (funnelTotal t : Rat)) 2
      avg_days_to_convert := (sqlAvg (convertGaps t)).map (pgRound · 1) }

/-- Output row of `get_latest_snapshot` (src/utils/database.py lines 241-262). -/
structure SnapshotRow where
  active_customers : Nat
  total_arr : Option Rat
  prev_active_customers : Nat
  prev_arr : Option Rat
deriving DecidableEq

/-- Embeds `get_latest_snapshot` (src/utils/database.py lines 241-262): KPI-card
scalars for the two most recent months.  The four subqueries return one row
always; `COUNT` of an empty subset is 0 and `SUM` of an empty subset is `NULL`. -/
def get_latest_snapshot (t : Table) : SnapshotRow :=
  { active_customers := uniqueIds (latestActiveRows t)
    total_arr := (sqlSum ((latestActiveRows t).map (·.annual_recurring_revenue))).map (pgRound · 2)
    prev_active_customers := uniqueIds (prevActiveRows t)
    prev_arr := (sqlSum ((prevActiveRows t).map (·.annual_recurring_revenue))).map (pgRound · 2) }

/-- Output row of `get_mau_metrics` (src/utils/database.py lines 264-277). -/
structure MauRow where
  month_date : Nat
  monthly_active_users : Nat
  active_customers : Nat
  engagement_rate : Option Rat
deriving DecidableEq

/-- Embeds `COUNT(DISTINCT CASE WHEN events_28d > 0 THEN id END)` for month `m`:
counts every customer with events, regardless of `is_active`. -/
def mauCount (t : Table) (m : Nat) : Nat :=
  uniqueIds ((rowsOfMonth t m).filter (fun r => decide (0 < r.events_28d)))

/-- Embeds `COUNT(DISTINCT CASE WHEN is_active THEN id END)` for month `m`. -/
def mauActive (t : Table) (m : Nat) : Nat := uniqueIds (activeRowsOfMonth t m)

/-- The `get_mau_metrics` aggregates for month `m`; the engagement rate
divides by `NULLIF(active, 0)`. -/
def mauRowOfMonth (t : Table) (m : Nat) : MauRow :=
  { month_date := m
    monthly_active_users := mauCount t m
    active_customers := mauActive t m
    engagement_rate :=
      if mauActive t m = 0 then none
      else some (pgRound (100 * (mauCount t m : Rat) / (mauActive t m : Rat)) 2) }

/-- Embeds `get_mau_metrics` (src/utils/database.py lines 264-277). -/
def get_mau_metrics (t : Table) : List MauRow := (monthsAsc t).map (mauRowOfMonth t)

/-- Output row of `get_at_risk_accounts` (src/utils/database.py lines 416-447). -/
structure AtRiskRow where
  customer_id : Nat
  plan : Plan
  arr : Rat
  total_events : Nat
  avg_events_per_day : Rat
deriving DecidableEq

/-- The `customer_usage` CTE: latest month, active, `annual_recurring_revenue > 0`. -/
def customerUsage (t : Table) : Table :=
  t.filter (fun r => decide (some r.month_date = maxMonth t) && r.is_active &&
    decide (0 < r.annual_recurring_revenue))

/-- The at-risk rows: `events_28d < 100 AND arr > 1000` on top of `customer_usage`. -/
def atRiskQual (t : Table) : Table :=
  (customerUsage t).filter (fun r =>
    decide (r.events_28d < 100) && decide (1000 < r.annual_recurring_revenue))

/-- Render one at-risk output row. -/
def atRiskRowOf (r : Row) : AtRiskRow :=
  { customer_id := r.id
    plan := r.plan
    arr := r.annual_recurring_revenue
    total_events := r.events_28d
    avg_events_per_day := pgRound ((r.events_28d : Rat) / 28) 1 }

/-- Embeds `get_at_risk_accounts` (src/utils/database.py lines 416-447):
`ORDER BY arr DESC LIMIT 10`. -/
def get_at_risk_accounts (t : Table) : List AtRiskRow :=
  ((sortOrd (fun a b : Row => decide (b.annual_recurring_revenue ≤ a.annual_recurring_revenue))
    (atRiskQual t)).take 10).map atRiskRowOf

/-- One `GROUP BY c.id, c.plan, c.account_created_date` group of
`get_high_opportunity_clients`, with the exact (pre-rounding) average. -/
structure HocGroup where
  customer_id : Nat
  plan : Plan
  joined_date : Nat
  avg_events : Rat
  peak_events : Nat
  months_active : Nat
deriving DecidableEq

/-- Output row of `get_high_opportunity_clients` (src/utils/database.py lines 449-485). -/
structure HighOppRow where
  customer_id : Nat
  plan : Plan
  avg_events_28d : Rat
  peak_events_28d : Nat
  months_active : Nat
  joined_date : Nat
deriving DecidableEq

/-- The rows the `high_usage_free` CTE aggregates over: a recent-6-months row
that is active, on Free or Trial, with `events_28d > 0`. -/
def hocQual (t : Table) : Table :=
  t.filter (fun r => decide (r.month_date ∈ recentMonths 6 t) && r.is_active &&
    (decide (r.plan = Plan.Free) || decide (r.plan = Plan.Trial)) && decide (0 < r.events_28d))

/-- The distinct grouping keys `(id, plan, account_created_date)`. -/
def hocKeys (t : Table) : List (Nat × Plan × Nat) :=
  ((hocQual t).map (fun r => (r.id, r.plan, r.account_created_date))).dedup

/-- The qualifying rows of one group. -/
def hocGroupRows (t : Table) (k : Nat × Plan × Nat) : Table :=
  (hocQual t).filter (fun r => decide ((r.id, r.plan, r.account_created_date) = k))

/-- The aggregates of one group: `AVG(events_28d)`, `MAX(events_28d)`, `COUNT(*)`. -/
def hocGroupOf (t : Table) (k : Nat × Plan × Nat) : HocGroup :=
  { customer_id := k.1
    plan := k.2.1
    joined_date := k.2.2
    avg_events := ((hocGroupRows t k).map (fun r => (r.events_28d : Rat))).sum /
      ((hocGroupRows t k).length : Rat)
    peak_events := (listMaxNat ((hocGroupRows t k).map (·.events_28d))).getD 0
    months_active := (hocGroupRows t k).length }

/-- The groups surviving `HAVING AVG(c.events_28d) > 500`. -/
def hocGroups (t : Table) : List HocGroup :=
  ((hocKeys t).map (hocGroupOf t)).filter (fun gr => decide (500 < gr.avg_events))

/-- Embeds `ORDER BY avg_events DESC LIMIT 15`. -/
def hocSelected (t : Table) : List HocGroup :=
  (sortOrd (fun a b => decide (b.avg_events ≤ a.avg_events)) (hocGroups t)).take 15

/-- Render one output row (`ROUND(avg_events, 0)`). -/
def highOppRowOf (gr : HocGroup) : HighOppRow :=
  { customer_id := gr.customer_id
    plan := gr.plan
    avg_events_28d := pgRound gr.avg_events 0
    peak_events_28d := gr.peak_events
    months_active := gr.months_active
    joined_date := gr.joined_date }

/-- Embeds `get_high_opportunity_clients` (src/utils/database.py lines 449-485). -/
def get_high_opportunity_clients (t : Table) : List HighOppRow :=
  (hocSelected t).map highOppRowOf

/-- Output row of `get_potential_referrals` (src/utils/database.py lines 487-555). -/
structure ReferralRow where
  customer_id : Nat
  starting_plan_name : Option Plan
  ending_plan_name : Option Plan
  avg_events : Rat
  peak_events : Nat
  months_observed : Nat
  joined_date : Nat
  upgrade_type : String
deriving DecidableEq

/-- The `first_six_months` CTE: rows with `months_since_joining <= 6`, where
`months_since_joining` is the month difference between `month_date` and
`account_created_date` (computed over the integers, as `AGE` can be negative). -/
def firstSixMonthsRows (t : Table) : Table :=
  t.filter (fun r => decide ((r.month_date : Int) - (r.account_created_date : Int) ≤ 6))

/-- The distinct customer ids grouped by the `plan_changes` CTE. -/
def refIds (t : Table) : List Nat := ((firstSixMonthsRows t).map (·.id)).dedup

/-- The first-six-months rows of customer `i`. -/
def refRows (t : Table) (i : Nat) : Table :=
  (firstSixMonthsRows t).filter (fun r => decide (r.id = i))

/-- Embeds `MIN(plan_rank)` of the group (0 only on an impossible empty group). -/
def startingRank (t : Table) (i : Nat) : Nat :=
  (listMinNat ((refRows t i).map (fun r => planRank r.plan))).getD 0

/-- Embeds `MAX(plan_rank)` of the group. -/
def endingRank (t : Table) (i : Nat) : Nat :=
  (listMaxNat ((refRows t i).map (fun r => planRank r.plan))).getD 0

/-- Embeds `MIN(CASE WHEN plan_rank = 1 OR plan_rank = 2 THEN plan END)`: the text
minimum over the group's Free/Trial plans only. -/
def startingPlanName (t : Table) (i : Nat) : Option Plan :=
  sqlMinPlan (((refRows t i).filter
    (fun r => decide (planRank r.plan = 1) || decide (planRank r.plan = 2))).map (·.plan))

/-- Embeds `MAX(plan)`: the text (alphabetical) maximum over all the group's plans. -/
def endingPlanName (t : Table) (i : Nat) : Option Plan :=
  sqlMaxPlan ((refRows t i).map (·.plan))

/-- Embeds `ROUND(AVG(events_28d)::numeric, 0)` of the group; the outer query
filters and orders on this rounded alias. -/
def refAvgEvents (t : Table) (i : Nat) : Rat :=
  pgRound ((((refRows t i).map (fun r => (r.events_28d : Rat))).sum) /
    ((refRows t i).length : Rat)) 0

/-- Embeds `MAX(events_28d)` of the group. -/
def refPeakEvents (t : Table) (i : Nat) : Nat :=
  (listMaxNat ((refRows t i).map (·.events_28d))).getD 0

/-- Embeds `COUNT(DISTINCT month_date)` of the group. -/
def refMonthsObserved (t : Table) (i : Nat) : Nat :=
  (((refRows t i).map (·.month_date)).dedup).length

/-- Embeds `MIN(account_created_date)` of the group. -/
def refJoinedDate (t : Table) (i : Nat) : Nat :=
  (listMinNat ((refRows t i).map (·.account_created_date))).getD 0

/-- The `Free/Trial → Paid` predicate: `starting_plan_rank IN (1, 2) AND ending_plan_rank >= 3`. -/
def freeToPaid (t : Table) (i : Nat) : Prop :=
  (startingRank t i = 1 ∨ startingRank t i = 2) ∧ 3 ≤ endingRank t i

/-- The `Paid Tier Upgrade` predicate: `starting_plan_rank >= 3 AND ending_plan_rank > starting_plan_rank`. -/
def paidUpgrade (t : Table) (i : Nat) : Prop :=
  3 ≤ startingRank t i ∧ startingRank t i < endingRank t i

instance (t : Table) (i : Nat) : Decidable (freeToPaid t i) := by
  unfold freeToPaid; infer_instance

instance (t : Table) (i : Nat) : Decidable (paidUpgrade t i) := by
  unfold paidUpgrade; infer_instance

/-- The customers surviving `HAVING MAX(plan_rank) > MIN(plan_rank)` and the
outer `WHERE avg_events_first_6mo > 100 AND (upgrade predicate)`. -/
def refQualIds (t : Table) : List Nat :=
  (refIds t).filter (fun i => decide (startingRank t i < endingRank t i) &&
    decide (100 < refAvgEvents t i) &&
    (decide (freeToPaid t i) || decide (paidUpgrade t i)))

/-- Render one `get_potential_referrals` output row.  The `CASE` upgrade-type
always hits a branch because the `WHERE` clause requires one predicate. -/
def referralRowOf (t : Table) (i : Nat) : ReferralRow :=
  { customer_id := i
    starting_plan_name := startingPlanName t i
    ending_plan_name := endingPlanName t i
    avg_events := refAvgEvents t i
    peak_events := refPeakEvents t i
    months_observed := refMonthsObserved t i
    joined_date := refJoinedDate t i
    upgrade_type := if freeToPaid t i then ("Free/Trial → Paid") else ("Paid Tier Upgrade") }

/-- The `ORDER BY CASE ... END` sort key: category 1 for Free/Trial → Paid,
category 2 for Paid Tier Upgrade. -/
def refCategory (row : ReferralRow) : Nat :=
  if row.upgrade_type = ("Free/Trial → Paid") then 1 else 2

/-- Embeds `get_potential_referrals` (src/utils/database.py lines 487-555):
ordered by category, then `avg_events_first_6mo DESC`. -/
def get_potential_referrals (t : Table) : List ReferralRow :=
  sortOrd (fun a b => decide (refCategory a < refCategory b) ||
      (decide (refCategory a = refCategory b) && decide (b.avg_events ≤ a.avg_events)))
    ((refQualIds t).map (referralRowOf t))

/-- Embeds `pandas.Series.rolling(window=w, min_periods=1).mean()` applied to a
series (src/app.py line 174): the trailing window of up to `w` points ending
at index `i`. -/
def movingAverage (w : Nat) (xs : List Rat) : List Rat :=
  (List.range xs.length).map (fun i =>
    let win := (xs.take (i + 1)).drop (i + 1 - w)
    win.sum / (win.length : Rat))

/-- The `arr_3mo_ma` column of src/app.py lines 173-174: the 3-month moving
average of the monthly `total_arr` series. -/
def arr_3mo_ma (t : Table) : List Rat :=
  movingAverage 3 ((get_monthly_metrics t).map (·.total_arr))

/-- Embeds `customer_growth` of src/app.py line 149:
`((active_customers - prev_active) / prev_active * 100) if prev_active > 0 else 0`. -/
def customer_growth (s : SnapshotRow) : Rat :=
  if 0 < s.prev_active_customers then
    ((s.active_customers : Rat) - (s.prev_active_customers : Rat)) /
      (s.prev_active_customers : Rat) * 100
  else 0

/-- Embeds `arr_growth` of src/app.py line 150:
`((total_arr - prev_arr) / prev_arr * 100) if prev_arr > 0 else 0`.
A SQL `NULL` arrives in pandas as NaN; `NaN > 0` is false, so a missing
`prev_arr` takes the `else 0` branch, while a missing `total_arr` with a
positive `prev_arr` propagates NaN (modelled as `none`). -/
def arr_growth (s : SnapshotRow) : Option Rat :=
  match s.prev_arr with
  | none => some 0
  | some p =>
    if 0 < p then
      match s.total_arr with
      | none => none
      | some a => some ((a - p) / p * 100)
    else some 0

/-- Row builder for fixture tables: demographics absent, `events_daily = 0`. -/
def mkRow (i m : Nat) (act : Bool) (p : Plan) (arr : Rat) (ev : Nat) (acd : Nat) : Row :=
  { id := i
    month_date := m
    is_active := act
    plan := p
    annual_recurring_revenue := arr
    events_daily := 0
    events_28d := ev
    account_created_date := acd
    country := none
    industry := none }

/-- Executable check of the §3 key invariant: no two rows share `(id, month_date)`. -/
def uniqueKey : Table → Bool
  | [] => true
  | r :: l =>
    l.all (fun s => !(decide (r.id = s.id) && decide (r.month_date = s.month_date))) &&
      uniqueKey l

/-- Executable check of the §3 data-model invariants that concern single rows
and customer constants: non-negative ARR and a constant
`account_created_date` per customer.  Usage counters are non-negative by type. -/
def wellFormed (t : Table) : Bool :=
  uniqueKey t &&
  t.all (fun r => decide (0 ≤ r.annual_recurring_revenue)) &&
  t.all (fun r => t.all (fun s =>
    !(decide (r.id = s.id)) || decide (r.account_created_date = s.account_created_date)))

/-- Fixture for the referral `MAX(plan)` collation bug: one customer observed
on Trial in its signup month and on Middle one month later, with high usage. -/
def tRef : Table := [mkRow 1 0 true .Trial 0 200 0, mkRow 1 1 true .Middle 100 200 0]

/-- Fixture for a churn month with zero previously-active customers: one
customer inactive in two consecutive months. -/
def tPriorZero : Table := [mkRow 1 0 false .Free 0 0 0, mkRow 1 1 false .Free 0 0 0]

/-- Fixture for the spec's churn scenario: one customer
active → active → inactive → (absent). -/
def tChurnAAI : Table :=
  [mkRow 1 0 true .Free 0 0 0, mkRow 1 1 true .Free 0 0 0, mkRow 1 2 false .Free 0 0 0]

/-- Fixture where the churn rate needs rounding: three customers active in
month 0, one of them inactive in month 1. -/
def tChurnThird : Table :=
  [mkRow 1 0 true .Free 0 0 0, mkRow 2 0 true .Free 0 0 0, mkRow 3 0 true .Free 0 0 0,
   mkRow 1 1 false .Free 0 0 0, mkRow 2 1 true .Free 0 0 0, mkRow 3 1 true .Free 0 0 0]

/-- Fixture with half-cent ARR values in two different plans of one month. -/
def tHalfCent : Table := [mkRow 1 0 true .Free (1/200) 0 0, mkRow 2 0 true .Trial (1/200) 0 0]

/-- Fixture with cent-exact ARR values in two plans of one month. -/
def tCents : Table := [mkRow 1 0 true .Free 10 0 0, mkRow 2 0 true .Low (41/2) 0 0]

/-- Fixture for the high-opportunity window average: one Trial customer with
1000 events in month 0 and 0 events in month 1. -/
def tHocAvg : Table := [mkRow 1 0 true .Trial 0 1000 0, mkRow 1 1 true .Trial 0 0 0]

/-- Fixture for the high-opportunity current-plan check: a customer on Trial
in month 0 that is on Middle in the latest month 1. -/
def tHocPlan : Table := [mkRow 2 0 true .Trial 0 1000 0, mkRow 2 1 true .Middle 0 1000 0]

/-- Fixture with one qualifying high-opportunity customer. -/
def tHocOne : Table := [mkRow 7 0 true .Free 0 600 0]

/-- Fixture for the at-risk boundary cases, all in the single month 0:
ARR 1500 with 50 events, ARR exactly 1000, events exactly 100. -/
def tAtRisk : Table :=
  [mkRow 1 0 true .Top 1500 50 0, mkRow 2 0 true .Low 1000 50 0, mkRow 3 0 true .Top 1500 100 0]

/-- Fixture for geography: one active customer with a country and one without. -/
def tGeo : Table :=
  [{ mkRow 1 0 true .Top 10 0 0 with country := some ("US") }, mkRow 2 0 true .Free 5 0 0]

/-- Fixture for the engagement rate: one active and one inactive customer,
both with events in month 0. -/
def tMau : Table := [mkRow 1 0 true .Low 0 500 0, mkRow 2 0 false .Free 0 500 0]

/-! ## General lemmas about the list-level building blocks -/

theorem mem_insertOrd {le : α → α → Bool} {x a : α} {l : List α} :
    a ∈ insertOrd le x l ↔ a = x ∨ a ∈ l := by
  induction l with
  | nil => simp [insertOrd]
  | cons b l ih =>
    by_cases h : le x b = true
    · simp [insertOrd, h]
    · simp only [insertOrd, if_neg h, List.mem_cons, ih]
      tauto

theorem mem_sortOrd {le : α → α → Bool} {a : α} {l : List α} :
    a ∈ sortOrd le l ↔ a ∈ l := by
  induction l with
  | nil => simp [sortOrd]
  | cons b l ih => simp [sortOrd, mem_insertOrd, ih]

theorem perm_insertOrd (le : α → α → Bool) (x : α) (l : List α) :
    List.Perm (insertOrd le x l) (x :: l) := by
  induction l with
  | nil => simp [insertOrd]
  | cons b l ih =>
    by_cases h : le x b = true
    · simp [insertOrd, h]
    · have h1 : insertOrd le x (b :: l) = b :: insertOrd le x l := by simp [insertOrd, h]
      rw [h1]
      exact (ih.cons b).trans (List.Perm.swap x b l)

theorem perm_sortOrd (le : α → α → Bool) (l : List α) : List.Perm (sortOrd le l) l := by
  induction l with
  | nil => simp [sortOrd]
  | cons b l ih => exact (perm_insertOrd le b (sortOrd le l)).trans (ih.cons b)

theorem length_sortOrd (le : α → α → Bool) (l : List α) :
    (sortOrd le l).length = l.length :=
  (perm_sortOrd le l).length_eq

theorem pairwise_insertOrd {le : α → α → Bool}
    (htrans : ∀ a b c, le a b = true → le b c = true → le a c = true)
    (htot : ∀ a b, le a b = true ∨ le b a = true)
    {x : α} {l : List α} (h : l.Pairwise (fun a b => le a b = true)) :
    (insertOrd le x l).Pairwise (fun a b => le a b = true) := by
  induction l with
  | nil => simp [insertOrd]
  | cons b l ih =>
    rcases List.pairwise_cons.mp h with ⟨hb, hl⟩
    by_cases hxb : le x b = true
    · simp only [insertOrd, if_pos hxb]
      refine List.pairwise_cons.mpr ⟨?_, h⟩
      intro c hc
      rcases List.mem_cons.mp hc with rfl | hc
      · exact hxb
      · exact htrans _ _ _ hxb (hb _ hc)
    · simp only [insertOrd, if_neg hxb]
      refine List.pairwise_cons.mpr ⟨?_, ih hl⟩
      intro c hc
      rcases mem_insertOrd.mp hc with hcx | hc
      · rw [hcx]
        rcases htot x b with hh | hh
        · exact absurd hh hxb
        · exact hh
      · exact hb _ hc

theorem pairwise_sortOrd {le : α → α → Bool}
    (htrans : ∀ a b c, le a b = true → le b c = true → le a c = true)
    (htot : ∀ a b, le a b = true ∨ le b a = true) (l : List α) :
    (sortOrd le l).Pairwise (fun a b => le a b = true) := by
  induction l with
  | nil => simp [sortOrd]
  | cons b l ih => exact pairwise_insertOrd htrans htot ih

theorem latestRow_eq_none {l : Table} : latestRow l = none ↔ l = [] := by
  cases l with
  | nil => simp [latestRow]
  | cons s l =>
    cases hl : latestRow l with
    | none => simp [latestRow, hl]
    | some q =>
      simp only [latestRow, hl]
      split_ifs <;> simp

theorem latestRow_mem : ∀ {l : Table} {m : Row}, latestRow l = some m → m ∈ l := by
  intro l
  induction l with
  | nil => intro m h; simp [latestRow] at h
  | cons s l ih =>
    intro m h
    cases hl : latestRow l with
    | none =>
      simp only [latestRow, hl, Option.some.injEq] at h
      simp [h]
    | some q =>
      simp only [latestRow, hl] at h
      split_ifs at h with hq <;> simp only [Option.some.injEq] at h
      · simp [h]
      · exact List.mem_cons_of_mem _ (h ▸ ih hl)

theorem latestRow_le : ∀ {l : Table} {m : Row}, latestRow l = some m →
    ∀ r ∈ l, r.month_date ≤ m.month_date := by
  intro l
  induction l with
  | nil => intro m h; simp [latestRow] at h
  | cons s l ih =>
    intro m h r hr
    cases hl : latestRow l with
    | none =>
      have hnil : l = [] := latestRow_eq_none.mp hl
      subst hnil
      simp only [latestRow, Option.some.injEq] at h
      simp only [List.mem_singleton] at hr
      subst h; subst hr; exact le_refl _
    | some q =>
      simp only [latestRow, hl] at h
      rcases List.mem_cons.mp hr with rfl | hr'
      · split_ifs at h with hq <;> simp only [Option.some.injEq] at h
        · subst h; exact le_refl _
        · subst h; exact le_of_not_lt hq
      · have hle := ih hl r hr'
        split_ifs at h with hq <;> simp only [Option.some.injEq] at h
        · subst h; exact hle.trans (le_of_lt hq)
        · subst h; exact hle

theorem ratFloor_eq_floor (x : Rat) : ratFloor x = ⌊x⌋ := Rat.floor_def.symm

theorem floor_intCast_add_half (k : Int) : ⌊(k : Rat) + 1 / 2⌋ = k := by
  rw [add_comm, Int.floor_add_int]
  have : ⌊(1 / 2 : Rat)⌋ = 0 := by
    rw [Int.floor_eq_zero_iff]
    constructor <;> norm_num
  rw [this, zero_add]

theorem pgRound_two_of_centValued {x : Rat} (h : centValued x) : pgRound x 2 = x := by
  obtain ⟨k, hk⟩ := h
  have hp : (((10 : Nat) ^ 2 : Nat) : Rat) = 100 := by norm_num
  rcases le_or_lt 0 x.num with hx | hx
  · rw [pgRound, if_pos hx, hp, hk, ratFloor_eq_floor, floor_intCast_add_half]
    field_simp at hk ⊢
    linarith
  · rw [pgRound, if_neg (not_le.mpr hx), hp]
    have hk' : -x * 100 = ((-k : Int) : Rat) := by push_cast; linarith
    rw [hk', ratFloor_eq_floor, floor_intCast_add_half]
    push_cast
    field_simp at hk ⊢
    linarith

theorem centValued_sum : ∀ {l : List Rat}, (∀ x ∈ l, centValued x) → centValued l.sum := by
  intro l
  induction l with
  | nil => intro _; exact ⟨0, by norm_num⟩
  | cons a l ih =>
    intro h
    obtain ⟨k, hk⟩ := h a (List.mem_cons_self a l)
    obtain ⟨j, hj⟩ := ih (fun x hx => h x (List.mem_cons_of_mem _ hx))
    refine ⟨k + j, ?_⟩
    rw [List.sum_cons]
    push_cast
    linarith

theorem sum_map_ite_active (l : Table) (f : Row → Rat) :
    (l.map (fun r => if r.is_active then f r else 0)).sum
      = ((l.filter (·.is_active)).map f).sum := by
  induction l with
  | nil => simp
  | cons r l ih =>
    by_cases h : r.is_active = true
    · simp [List.filter_cons, h, ih]
    · simp only [Bool.not_eq_true] at h
      simp [List.filter_cons, h, ih]

theorem sum_filter_of_zero {α : Type} (l : List α) (q : α → Bool) (g : α → Rat)
    (h : ∀ a ∈ l, q a = false → g a = 0) :
    ((l.filter q).map g).sum = (l.map g).sum := by
  induction l with
  | nil => simp
  | cons a l ih =>
    have ih' := ih (fun b hb hq => h b (List.mem_cons_of_mem _ hb) hq)
    cases hq : q a
    · simp [List.filter_cons, hq, ih', h a (List.mem_cons_self a l) hq]
    · simp [List.filter_cons, hq, ih']

theorem sum_planOrder_filter (L : Table) (f : Row → Rat) :
    (planOrder.map (fun p => ((L.filter (fun r => decide (r.plan = p))).map f).sum)).sum
      = (L.map f).sum := by
  induction L with
  | nil => simp [planOrder]
  | cons r L ih =>
    simp only [planOrder, List.map_cons, List.map_nil, List.sum_cons, List.sum_nil] at ih ⊢
    cases hp : r.plan <;>
      simp only [List.filter_cons, hp, decide_True, decide_False, reduceCtorEq,
        if_true, if_false, List.map_cons, List.sum_cons] <;>
      linarith [ih]

theorem filter_flatMap_key {β : Type} (key : β → Nat) (f : Nat → List β) :
    ∀ (l : List Nat), l.Nodup → (∀ m x, x ∈ f m → key x = m) →
      ∀ m ∈ l, (l.flatMap f).filter (fun x => decide (key x = m)) = f m := by
  intro l
  induction l with
  | nil => simp
  | cons a l ih =>
    intro hnd hf m hm
    have hnd' := List.nodup_cons.mp hnd
    rw [List.flatMap_cons, List.filter_append]
    rcases List.mem_cons.mp hm with rfl | hm'
    · have h1 : (f m).filter (fun x => decide (key x = m)) = f m := by
        apply List.filter_eq_self.mpr
        intro x hx
        simp [hf m x hx]
      have h2 : (l.flatMap f).filter (fun x => decide (key x = m)) = [] := by
        apply List.filter_eq_nil.mpr
        intro x hx
        rcases List.mem_flatMap.mp hx with ⟨b, hb, hxb⟩
        have hkey := hf b x hxb
        have hbm : ¬ b = m := fun e => hnd'.1 (e ▸ hb)
        simp [hkey, hbm]
      rw [h1, h2, List.append_nil]
    · have ham : ¬ a = m := fun e => hnd'.1 (e ▸ hm')
      have h1 : (f a).filter (fun x => decide (key x = m)) = [] := by
        apply List.filter_eq_nil.mpr
        intro x hx
        simp [hf a x hx, ham]
      rw [h1, List.nil_append]
      exact ih hnd'.2 hf m hm'

theorem sum_map_add_nat {α : Type} (l : List α) (f g : α → Nat) :
    (l.map (fun x => f x + g x)).sum = (l.map f).sum + (l.map g).sum := by
  induction l with
  | nil => simp
  | cons a l ih => simp [ih]; omega

theorem sum_map_ite_zero {α : Type} [DecidableEq α] {a : α} :
    ∀ {l : List α}, a ∉ l → (l.map (fun c => if a = c then (1 : Nat) else 0)).sum = 0 := by
  intro l
  induction l with
  | nil => simp
  | cons b l ih =>
    intro h
    have hab : ¬ a = b := fun e => h (e ▸ List.mem_cons_self b l)
    have h' : a ∉ l := fun e => h (List.mem_cons_of_mem _ e)
    simp [hab, ih h']

theorem sum_map_ite_one {α : Type} [DecidableEq α] {a : α} :
    ∀ {l : List α}, l.Nodup → a ∈ l →
      (l.map (fun c => if a = c then (1 : Nat) else 0)).sum = 1 := by
  intro l
  induction l with
  | nil => simp
  | cons b l ih =>
    intro hnd hm
    have hnd' := List.nodup_cons.mp hnd
    rcases List.mem_cons.mp hm with rfl | hm'
    · simp [sum_map_ite_zero hnd'.1]
    · have hab : ¬ a = b := fun e => hnd'.1 (e ▸ hm')
      simp [hab, ih hnd'.2 hm']

theorem length_filter_not_mem {α : Type} [DecidableEq α] {a : α} {l : List α} (h : a ∉ l) :
    (l.filter (fun x => decide (x = a))).length = 0 := by
  have : l.filter (fun x => decide (x = a)) = [] := by
    apply List.filter_eq_nil.mpr
    intro x hx
    simp only [decide_eq_true_eq]
    exact fun e => h (e ▸ hx)
  simp [this]

theorem sum_dedup_filter_length {α : Type} [DecidableEq α] (C : List α) :
    ((C.dedup.map (fun c => (C.filter (fun x => decide (x = c))).length)).sum = C.length) := by
  induction C with
  | nil => simp
  | cons a l ih =>
    have hsplit : ∀ c ∈ l.dedup,
        ((a :: l).filter (fun x => decide (x = c))).length
          = (if a = c then 1 else 0) + (l.filter (fun x => decide (x = c))).length := by
      intro c _
      by_cases h : a = c <;> simp [List.filter_cons, h] <;> omega
    by_cases hmem : a ∈ l
    · rw [List.dedup_cons_of_mem hmem, List.map_congr_left hsplit, sum_map_add_nat, ih,
        sum_map_ite_one (List.nodup_dedup l) (List.mem_dedup.mpr hmem)]
      simp only [List.length_cons]
      omega
    · rw [List.dedup_cons_of_not_mem hmem]
      simp only [List.map_cons, List.sum_cons]
      rw [List.map_congr_left hsplit, sum_map_add_nat, ih,
        sum_map_ite_zero ((@List.mem_dedup _ _ a l).not.mpr hmem),
        List.filter_cons]
      simp [length_filter_not_mem hmem]
      omega

theorem length_filter_country (c : String) :
    ∀ (Q : Table), (∀ r ∈ Q, (r.country).isSome = true) →
      (Q.filter (fun r => decide (r.country = some c))).length
        = ((Q.filterMap (·.country)).filter (fun x => decide (x = c))).length := by
  intro Q
  induction Q with
  | nil => simp
  | cons r Q ih =>
    intro h
    obtain ⟨d, hd⟩ : ∃ d, r.country = some d :=
      Option.isSome_iff_exists.mp (h r (List.mem_cons_self r Q))
    have ih' := ih (fun s hs => h s (List.mem_cons_of_mem _ hs))
    by_cases hdc : d = c
    · subst hdc
      simp [List.filter_cons, List.filterMap_cons, hd, ih']
    · simp [List.filter_cons, List.filterMap_cons, hd, hdc, ih']

theorem sum_map_le_nat {α : Type} (l : List α) (f g : α → Nat) (h : ∀ a ∈ l, f a ≤ g a) :
    (l.map f).sum ≤ (l.map g).sum := by
  induction l with
  | nil => simp
  | cons a l ih =>
    have := h a (List.mem_cons_self a l)
    have := ih (fun b hb => h b (List.mem_cons_of_mem _ hb))
    simp only [List.map_cons, List.sum_cons]
    omega

theorem uniqueIds_le_length (l : Table) : uniqueIds l ≤ l.length := by
  have h1 : (l.map (·.id)).dedup.length ≤ (l.map (·.id)).length :=
    (List.dedup_sublist _).length_le
  simpa [uniqueIds] using h1

/-! ## Claim theorems -/

/-- C7: the trailing 3-point moving average with `min_periods=1` semantics
(src/app.py line 174) yields `[10, 15, 20, 30]` on the series
`[10, 20, 30, 40]`; in general each of the first `windowSize - 1` points of
`movingAverage` averages over however many prior points exist rather than
being null. -/
theorem c7_moving_average :
    movingAverage 3 [10, 20, 30, 40] = [10, 15, 20, 30] ∧
    ∀ (w : Nat) (xs : List Rat) (i : Nat), i < xs.length → i + 1 ≤ w →
      (movingAverage w xs)[i]? = some ((xs.take (i + 1)).sum / ((i + 1 : Nat) : Rat)) := by
  constructor
  · norm_num [movingAverage, List.range_succ]
  · intro w xs i hi hw
    have hz : i + 1 - w = 0 := Nat.sub_eq_zero_of_le hw
    have hmin : (xs.take (i + 1)).length = i + 1 := by
      rw [List.length_take]
      exact Nat.min_eq_left (Nat.succ_le_of_lt hi)
    simp only [movingAverage, List.getElem?_map, List.getElem?_range hi, Option.map_some,
      Option.map_some', hz, List.drop_zero]
    rw [hmin]

/-- Witness for `c7_moving_average`: the second point of the window-3 moving
average of `[10, 20, 30, 40]` is the average of the two available points. -/
theorem c7_moving_average_witness :
    (movingAverage 3 [(10 : Rat), 20, 30, 40])[1]? =
      some ((([(10 : Rat), 20, 30, 40].take (1 + 1)).sum / ((1 + 1 : Nat) : Rat))) :=
  c7_moving_average.2 3 _ 1 (by norm_num) (by norm_num)

/-- C2 (evidence of the code bug): on an empty base table,
`get_conversion_funnel` divides by `COUNT(*) = 0` with no `NULLIF` guard and
raises a division-by-zero error (modelled as `none`) instead of returning a
correctly-shaped empty result, while its sibling `get_latest_snapshot`
returns the correctly-shaped all-null/zero row. -/
theorem c2_conversion_funnel_errors_on_empty :
    get_conversion_funnel ([] : Table) = none ∧
    get_latest_snapshot ([] : Table) = ⟨0, none, 0, none⟩ :=
  ⟨rfl, rfl⟩

/-- C10: the engagement rate of `get_mau_metrics` is not bounded by 100: on
the invariant-respecting table `tMau` (one active customer, one inactive
customer with events), the reported engagement rate is 200. -/
theorem c10_engagement_rate_exceeds_100 :
    wellFormed tMau = true ∧
    ∃ mrow ∈ get_mau_metrics tMau, ∃ q : Rat, mrow.engagement_rate = some q ∧ 100 < q := by
  have h : get_mau_metrics tMau = [⟨0, 2, 1, some 200⟩] := by
    norm_num [get_mau_metrics, mauRowOfMonth, mauCount, mauActive, uniqueIds, rowsOfMonth,
      activeRowsOfMonth, monthsAsc, sortOrd, insertOrd, pgRound, ratFloor, tMau, mkRow]
  exact ⟨by norm_num [wellFormed, uniqueKey, tMau, mkRow],
    ⟨0, 2, 1, some 200⟩, by rw [h]; exact List.mem_singleton.mpr rfl, 200, rfl, by norm_num⟩

/-- C1 (evidence of the code bug): in `get_potential_referrals` the reported
`ending_plan_name` is `MAX(plan)` over the plan *text*, i.e. the alphabetical
maximum.  On `tRef`, customer 1 is observed on Trial and then Middle inside
the first six months, so the tier maximum is Middle
(`planRank Trial < planRank Middle`), yet the code reports Trial. -/
theorem c1_ending_plan_is_alphabetical_not_tier_max :
    (get_potential_referrals tRef).map (·.ending_plan_name) = [some Plan.Trial] ∧
    (∃ r ∈ tRef, r.id = 1 ∧ r.plan = Plan.Middle ∧
      (r.month_date : Int) - (r.account_created_date : Int) ≤ 6) ∧
    planRank Plan.Trial < planRank Plan.Middle := by
  refine ⟨?_, ⟨mkRow 1 1 true .Middle 100 200 0, by simp [tRef], by norm_num [mkRow],
    by norm_num [mkRow], by norm_num [mkRow]⟩, by norm_num [planRank]⟩
  norm_num [get_potential_referrals, referralRowOf, refQualIds, refIds, refRows,
    firstSixMonthsRows, startingRank, endingRank, startingPlanName, endingPlanName,
    refAvgEvents, refPeakEvents, refMonthsObserved, refJoinedDate, freeToPaid, paidUpgrade,
    refCategory, sqlMaxPlan, sqlMinPlan, alphaMax, alphaMin, planAlphaRank, planRank,
    listMaxNat, listMinNat, sortOrd, insertOrd, pgRound, ratFloor, tRef, mkRow]

/-- C5 (counterexample to the claim as stated): the reported `churn_rate_pct`
is the ratio rounded to 2 decimals, not the exact
`churned_count / prior_active_count × 100`: with 1 of 3 prior-active
customers churned the code reports 33.33, while the exact ratio is 100/3. -/
theorem c5_counterexample_rounded_rate :
    get_churn_metrics tChurnThird = [⟨1, 3, 1, some (3333 / 100)⟩] ∧
    ¬ ((3333 : Rat) / 100 = 1 / 3 * 100) := by
  constructor
  · norm_num [get_churn_metrics, churnRowOfMonth, churnPrior, churnChurned, churnMonthRows,
      churnStatusRows, lagActive, latestRow, priorRows, tChurnThird, mkRow, sortOrd, insertOrd,
      pgRound, ratFloor]
  · norm_num

/-- C4 (counterexample to the claim as stated): `get_high_opportunity_clients`
averages `events_28d` over the *qualifying* rows only, and never consults the
customer's current (latest-month) plan.  On `tHocAvg` the average across the
customer's rows in the 6-month window is exactly 500 (not > 500), yet the
customer is returned, because the zero-event month is dropped before
averaging; on `tHocPlan` customer 2 is returned although its latest-month
plan is Middle, not Free/Trial. -/
theorem c4_counterexample_window_average_and_current_plan :
    (get_high_opportunity_clients tHocAvg).map (·.customer_id) = [1] ∧
    (((tHocAvg.filter (fun r => decide (r.id = 1) &&
        decide (r.month_date ∈ recentMonths 6 tHocAvg))).map
          (fun r => (r.events_28d : Rat))).sum /
      ((tHocAvg.filter (fun r => decide (r.id = 1) &&
        decide (r.month_date ∈ recentMonths 6 tHocAvg))).length : Rat)) = 500 ∧
    ¬ ((500 : Rat) > 500) ∧
    (get_high_opportunity_clients tHocPlan).map (·.customer_id) = [2] ∧
    (∃ r ∈ tHocPlan, some r.month_date = maxMonth tHocPlan ∧ r.id = 2 ∧
      r.plan = Plan.Middle) ∧
    ¬ (Plan.Middle = Plan.Free ∨ Plan.Middle = Plan.Trial) := by
  have hq : hocQual tHocPlan = [mkRow 2 0 true .Trial 0 1000 0] := by
    norm_num [hocQual, recentMonths, monthsDesc, sortOrd, insertOrd, tHocPlan, mkRow] <;> decide
  have hk : hocKeys tHocPlan = [(2, Plan.Trial, 0)] := by
    rw [hocKeys, hq]; norm_num [mkRow]
  have hg : hocGroupRows tHocPlan (2, Plan.Trial, 0) = [mkRow 2 0 true .Trial 0 1000 0] := by
    rw [hocGroupRows, hq]; norm_num [mkRow]
  have hgo : hocGroupOf tHocPlan (2, Plan.Trial, 0) = ⟨2, Plan.Trial, 0, 1000, 1000, 1⟩ := by
    rw [hocGroupOf, hg]; norm_num [listMaxNat, mkRow]
  have hsel : hocSelected tHocPlan = [⟨2, Plan.Trial, 0, 1000, 1000, 1⟩] := by
    rw [hocSelected, hocGroups, hk]
    norm_num [hgo, sortOrd, insertOrd]
  refine ⟨?_, ?_, by norm_num, ?_, ⟨mkRow 2 1 true .Middle 0 1000 0, by simp [tHocPlan],
    by norm_num [tHocPlan, maxMonth, listMaxNat, mkRow], by norm_num [mkRow],
    by norm_num [mkRow]⟩, by decide⟩
  · norm_num [get_high_opportunity_clients, hocSelected, hocGroups, hocGroupOf, hocKeys,
      hocGroupRows, hocQual, highOppRowOf, recentMonths, monthsDesc, sortOrd, insertOrd,
      listMaxNat, pgRound, ratFloor, tHocAvg, mkRow]
  · norm_num [recentMonths, monthsDesc, sortOrd, insertOrd, tHocAvg, mkRow]
  · rw [get_high_opportunity_clients, hsel]
    norm_num [highOppRowOf]

/-- C3 (counterexample to the claim as stated): when `total_users = 0` (empty
table) the conversion rate does not resolve to null — `get_conversion_funnel`
raises a division-by-zero error (modelled as `none`), so no row carrying a
null rate is produced at all. -/
theorem c3_counterexample_conversion_rate_errors :
    get_conversion_funnel ([] : Table) = none ∧ funnelTotal ([] : Table) = 0 :=
  ⟨rfl, rfl⟩

/-- C3 (amended): churn rate (`prior = 0`) and engagement rate (`active = 0`)
resolve to null, and the month-over-month growth deltas of src/app.py resolve
to 0 when the prior value is 0 (or missing); but the conversion rate with
`total_users = 0` raises a division-by-zero error instead of resolving to
null — `get_conversion_funnel` errs exactly on the empty table. -/
theorem c3_division_by_zero_asymmetry :
    (∀ (t : Table) (c : ChurnRow), c ∈ get_churn_metrics t →
      c.prev_month_active_count = 0 → c.churn_rate_pct = none) ∧
    (∀ (t : Table) (mr : MauRow), mr ∈ get_mau_metrics t →
      mr.active_customers = 0 → mr.engagement_rate = none) ∧
    (∀ s : SnapshotRow, s.prev_active_customers = 0 → customer_growth s = 0) ∧
    (∀ s : SnapshotRow, s.prev_arr = some 0 ∨ s.prev_arr = none → arr_growth s = some 0) ∧
    (∀ t : Table, get_conversion_funnel t = none ↔ t = []) := by
  refine ⟨?_, ?_, ?_, ?_, ?_⟩
  · intro t c hc h0
    obtain ⟨m, hm, rfl⟩ := List.mem_map.mp hc
    have hp : churnPrior t m = 0 := h0
    simp [churnRowOfMonth, hp]
  · intro t mr hm h0
    obtain ⟨m, hm', rfl⟩ := List.mem_map.mp hm
    have hp : mauActive t m = 0 := h0
    simp [mauRowOfMonth, hp]
  · intro s h
    simp [customer_growth, h]
  · intro s h
    rcases h with h | h <;> simp [arr_growth, h]
  · intro t
    constructor
    · intro h
      by_cases h0 : funnelTotal t = 0
      · have h1 : custIds t = [] := List.length_eq_zero.mp h0
        rw [custIds] at h1
        exact List.map_eq_nil.mp ((List.dedup_eq_nil _).mp h1)
      · rw [get_conversion_funnel, if_neg h0] at h
        exact absurd h (by simp)
    · intro h
      subst h
      rfl

/-- Witness for `c3_division_by_zero_asymmetry`: on `tPriorZero` the month-1
churn row has zero previously-active customers and a null churn rate. -/
theorem c3_division_by_zero_asymmetry_witness :
    (ChurnRow.mk 1 0 0 none) ∈ get_churn_metrics tPriorZero ∧
    (ChurnRow.mk 1 0 0 none).churn_rate_pct = none := by
  have hmem : (ChurnRow.mk 1 0 0 none) ∈ get_churn_metrics tPriorZero := by
    have h : get_churn_metrics tPriorZero = [⟨1, 0, 0, none⟩] := by
      norm_num [get_churn_metrics, churnRowOfMonth, churnPrior, churnChurned, churnMonthRows,
        churnStatusRows, lagActive, latestRow, priorRows, tPriorZero, mkRow, sortOrd,
        insertOrd, pgRound, ratFloor]
    rw [h]
    exact List.mem_singleton.mpr rfl
  exact ⟨hmem, c3_division_by_zero_asymmetry.1 tPriorZero _ hmem rfl⟩

/-- C5 (amended: the reported rate is rounded to 2 decimals): a customer is
counted as churned in month M iff its row of month M is inactive and
`LAG(is_active)` — the activity of the immediately preceding row of that
customer's own time-ordered sequence — is true; the previously-active count
counts the rows of month M whose preceding row was active; a customer's
first-appearing row has no `LAG` value and contributes to neither count;
`churn_rate_pct` is `ROUND(100·churned/prior, 2)` and null when `prior = 0`;
`lagActive` is the activity of the customer's latest strictly-earlier row
(unique under the `(id, month_date)` key invariant); and the history
active → active → inactive → (absent) is flagged exactly once, in the
transition month. -/
theorem c5_churn_transition_semantics :
    (∀ (t : Table) (c : ChurnRow), c ∈ get_churn_metrics t →
      c.churned_count = (t.filter (fun r => decide (r.month_date = c.month_date) &&
        !r.is_active && decide (lagActive t r = some true))).length ∧
      c.prev_month_active_count = (t.filter (fun r => decide (r.month_date = c.month_date) &&
        decide (lagActive t r = some true))).length ∧
      (c.prev_month_active_count = 0 → c.churn_rate_pct = none) ∧
      (c.prev_month_active_count ≠ 0 → c.churn_rate_pct =
        some (pgRound (100 * (c.churned_count : Rat) / (c.prev_month_active_count : Rat)) 2))) ∧
    (∀ (t : Table) (r : Row), (∀ s ∈ t, s.id = r.id → ¬ s.month_date < r.month_date) →
      lagActive t r = none) ∧
    (∀ (t : Table) (r s : Row), s ∈ t → s.id = r.id → s.month_date < r.month_date →
      (∀ u ∈ t, u.id = r.id → u.month_date < r.month_date → u.month_date ≤ s.month_date) →
      (∀ u ∈ t, u.id = r.id → u.month_date = s.month_date → u = s) →
      lagActive t r = some s.is_active) ∧
    get_churn_metrics tChurnAAI = [⟨1, 1, 0, some 0⟩, ⟨2, 1, 1, some 100⟩] := by
  refine ⟨?_, ?_, ?_, ?_⟩
  · intro t c hc
    obtain ⟨m, hm, rfl⟩ := List.mem_map.mp hc
    simp only [churnRowOfMonth]
    have hpred : ∀ (q : Row → Bool),
        ((churnMonthRows t m).filter q).length
          = (t.filter (fun r => q r && decide (r.month_date = m) &&
              (lagActive t r).isSome)).length := by
      intro q
      rw [churnMonthRows, churnStatusRows, List.filter_filter, List.filter_filter]
    refine ⟨?_, ?_, ?_, ?_⟩
    · rw [churnChurned, hpred]
      congr 1
      apply List.filter_congr
      intro r _
      cases hl : lagActive t r with
      | none => simp [hl]
      | some b =>
        cases b <;> by_cases hM : r.month_date = m <;> cases hA : r.is_active <;>
          simp [hl, hM, hA]
    · rw [churnPrior, hpred]
      congr 1
      apply List.filter_congr
      intro r _
      cases hl : lagActive t r with
      | none => simp [hl]
      | some b =>
        cases b <;> by_cases hM : r.month_date = m <;> simp [hl, hM]
    · intro h0
      have hp : churnPrior t m = 0 := h0
      simp [hp]
    · intro h0
      have hp : ¬ churnPrior t m = 0 := h0
      simp [hp]
  · intro t r h
    have hnil : priorRows t r = [] := by
      rw [priorRows]
      apply List.filter_eq_nil.mpr
      intro s hs
      simp only [Bool.and_eq_true, decide_eq_true_eq, not_and]
      exact fun hid => h s hs hid
    simp [lagActive, hnil, latestRow]
  · intro t r s hs hid hlt hmax huniq
    have hsp : s ∈ priorRows t r := by
      rw [priorRows, List.mem_filter]
      exact ⟨hs, by simp [hid, hlt]⟩
    obtain ⟨q, hq⟩ : ∃ q, latestRow (priorRows t r) = some q := by
      cases h : latestRow (priorRows t r) with
      | none =>
        rw [latestRow_eq_none.mp h] at hsp
        exact absurd hsp (List.not_mem_nil s)
      | some q => exact ⟨q, rfl⟩
    have hqmem := latestRow_mem hq
    have hqf := List.mem_filter.mp (by rw [priorRows] at hqmem; exact hqmem)
    have hqp : q.id = r.id ∧ q.month_date < r.month_date := by
      have := hqf.2
      simpa using this
    have h1 : s.month_date ≤ q.month_date := latestRow_le hq s hsp
    have h2 : q.month_date ≤ s.month_date := hmax q hqf.1 hqp.1 hqp.2
    have hqs : q = s := huniq q hqf.1 hqp.1 (le_antisymm h2 h1)
    rw [lagActive, hq, hqs]
    rfl
  · norm_num [get_churn_metrics, churnRowOfMonth, churnPrior, churnChurned, churnMonthRows,
      churnStatusRows, lagActive, latestRow, priorRows, tChurnAAI, mkRow, sortOrd, insertOrd,
      pgRound, ratFloor]

/-- Witness for `c5_churn_transition_semantics`: the signup-month row of the
`tChurnAAI` customer has no preceding row, so its `LAG` value is null. -/
theorem c5_churn_transition_semantics_witness :
    lagActive tChurnAAI (mkRow 1 0 true .Free 0 0 0) = none :=
  c5_churn_transition_semantics.2.1 tChurnAAI _ (fun s _ _ => by simp [mkRow])

/-- C8: `get_at_risk_accounts` returns exactly the renderings of the active
latest-month rows with ARR strictly above 1000 and `events_28d` strictly
below 100, ordered by ARR descending, at most 10 of them (all of them when at
most 10 qualify); on `tAtRisk` the ARR-1500/50-events customer is returned
while the ARR-exactly-1000 and the events-exactly-100 customers are not. -/
theorem c8_at_risk_accounts :
    (∀ (t : Table),
      (∀ a ∈ get_at_risk_accounts t, ∃ r ∈ t,
        some r.month_date = maxMonth t ∧ r.is_active = true ∧
        1000 < r.annual_recurring_revenue ∧ r.events_28d < 100 ∧ a = atRiskRowOf r) ∧
      (get_at_risk_accounts t).Pairwise (fun a b => b.arr ≤ a.arr) ∧
      (get_at_risk_accounts t).length ≤ 10 ∧
      ((atRiskQual t).length ≤ 10 → ∀ r ∈ t, some r.month_date = maxMonth t →
        r.is_active = true → 1000 < r.annual_recurring_revenue → r.events_28d < 100 →
        atRiskRowOf r ∈ get_at_risk_accounts t)) ∧
    get_at_risk_accounts tAtRisk = [⟨1, Plan.Top, 1500, 50, pgRound (50 / 28) 1⟩] := by
  constructor
  · intro t
    refine ⟨?_, ?_, ?_, ?_⟩
    · intro a ha
      rw [get_at_risk_accounts] at ha
      obtain ⟨r, hr, rfl⟩ := List.mem_map.mp ha
      have hr2 : r ∈ atRiskQual t := mem_sortOrd.mp (List.take_subset _ _ hr)
      rw [atRiskQual] at hr2
      obtain ⟨hr3, hp2⟩ := List.mem_filter.mp hr2
      rw [customerUsage] at hr3
      obtain ⟨hrt, hp1⟩ := List.mem_filter.mp hr3
      simp only [Bool.and_eq_true, decide_eq_true_eq] at hp1 hp2
      exact ⟨r, hrt, hp1.1.1, hp1.1.2, hp2.2, hp2.1, rfl⟩
    · have hs := @pairwise_sortOrd Row
        (fun a b : Row => decide (b.annual_recurring_revenue ≤ a.annual_recurring_revenue))
        (fun a b c h1 h2 => decide_eq_true
          (le_trans (of_decide_eq_true h2) (of_decide_eq_true h1)))
        (fun a b => by
          rcases le_total b.annual_recurring_revenue a.annual_recurring_revenue with h | h
          · exact Or.inl (decide_eq_true h)
          · exact Or.inr (decide_eq_true h))
        (atRiskQual t)
      rw [get_at_risk_accounts]
      refine List.pairwise_map.mpr ?_
      refine List.Pairwise.imp ?_ ((List.Pairwise.sublist (List.take_sublist _ _)) hs)
      intro a b hab
      exact of_decide_eq_true hab
    · simp only [get_at_risk_accounts, List.length_map, List.length_take]
      exact Nat.min_le_left _ _
    · intro hlen r hrt h1 h2 h3 h4
      have h0 : (0 : Rat) < r.annual_recurring_revenue := lt_trans (by norm_num) h3
      have hq : r ∈ atRiskQual t := by
        rw [atRiskQual, List.mem_filter]
        constructor
        · rw [customerUsage, List.mem_filter]
          exact ⟨hrt, by simp [h1, h2, h0]⟩
        · simp [h3, h4]
      rw [get_at_risk_accounts]
      apply List.mem_map_of_mem
      rw [List.take_of_length_le]
      · exact mem_sortOrd.mpr hq
      · rw [length_sortOrd]
        exact hlen
  · norm_num [get_at_risk_accounts, atRiskQual, customerUsage, atRiskRowOf, maxMonth,
      listMaxNat, sortOrd, insertOrd, tAtRisk, mkRow]

/-- Witness for `c8_at_risk_accounts`: on `tAtRisk` (3 qualifying-month rows,
at most 10 at-risk rows), the ARR-1500/50-events customer is in the output. -/
theorem c8_at_risk_accounts_witness :
    atRiskRowOf (mkRow 1 0 true .Top 1500 50 0) ∈ get_at_risk_accounts tAtRisk :=
  (c8_at_risk_accounts.1 tAtRisk).2.2.2
    (by norm_num [atRiskQual, customerUsage, maxMonth, listMaxNat, tAtRisk, mkRow])
    _ (by simp [tAtRisk])
    (by norm_num [maxMonth, listMaxNat, tAtRisk, mkRow])
    (by norm_num [mkRow]) (by norm_num [mkRow]) (by norm_num [mkRow])

/-- C9: every `get_revenue_by_geography` output row carries a present,
non-empty country witnessed by an active latest-month row (missing
demographics are excluded entirely), and — under the `(id, month_date)` key
invariant — the unique-customer counts summed over all countries are at most
the active-customer count of the latest month as `get_latest_snapshot`
reports it. -/
theorem c9_revenue_by_geography :
    (∀ (t : Table), ∀ g ∈ get_revenue_by_geography t, ¬ g.country = "" ∧
      ∃ r ∈ t, r.country = some g.country ∧ some r.month_date = maxMonth t ∧
        r.is_active = true) ∧
    (∀ (t : Table),
      List.Pairwise (fun a b : Row => ¬(a.id = b.id ∧ a.month_date = b.month_date)) t →
      ((get_revenue_by_geography t).map (·.unique_customers)).sum
        ≤ (get_latest_snapshot t).active_customers) := by
  constructor
  · intro t g hg
    rw [get_revenue_by_geography] at hg
    obtain ⟨c, hc, rfl⟩ := List.mem_map.mp (mem_sortOrd.mp hg)
    rw [geoCountries] at hc
    obtain ⟨r, hr, hrc⟩ := List.mem_filterMap.mp (List.mem_dedup.mp hc)
    rw [geoQual] at hr
    obtain ⟨hrA, hrC⟩ := List.mem_filter.mp hr
    rw [latestActiveRows] at hrA
    obtain ⟨hrt, hrp⟩ := List.mem_filter.mp hrA
    simp only [Bool.and_eq_true, decide_eq_true_eq] at hrp
    have hcne : ¬ c = "" := by
      rw [hasCountry, hrc] at hrC
      simpa using hrC
    exact ⟨by simpa [geoRowOf] using hcne,
      ⟨r, hrt, by simpa [geoRowOf] using hrc, hrp.1, hrp.2⟩⟩
  · intro t hpw
    have hperm : List.Perm ((get_revenue_by_geography t).map (·.unique_customers))
        (((geoCountries t).map (geoRowOf t)).map (·.unique_customers)) :=
      (perm_sortOrd _ _).map _
    rw [hperm.sum_eq, List.map_map]
    have h2 := sum_map_le_nat (geoCountries t) ((·.unique_customers) ∘ geoRowOf t)
      (fun c => (geoGroup t c).length)
      (fun c _ => by
        show uniqueIds (geoGroup t c) ≤ (geoGroup t c).length
        exact uniqueIds_le_length _)
    refine le_trans h2 ?_
    have hQsome : ∀ r ∈ geoQual t, (r.country).isSome = true := by
      intro r hr
      obtain ⟨-, hrC⟩ := List.mem_filter.mp (by rw [geoQual] at hr; exact hr)
      cases hcr : r.country with
      | none => rw [hasCountry, hcr] at hrC; simp at hrC
      | some c => simp [hcr]
    have h3 : ∀ c ∈ geoCountries t, (geoGroup t c).length
        = (((geoQual t).filterMap (·.country)).filter (fun x => decide (x = c))).length :=
      fun c _ => length_filter_country c (geoQual t) hQsome
    rw [List.map_congr_left h3, geoCountries, sum_dedup_filter_length]
    have hstep : ((geoQual t).filterMap (·.country)).length ≤ (latestActiveRows t).length :=
      le_trans (List.length_filterMap_le _ _)
        (by rw [geoQual]; exact List.length_filter_le _ _)
    refine le_trans hstep ?_
    have hpA : (latestActiveRows t).Pairwise
        (fun a b => ¬(a.id = b.id ∧ a.month_date = b.month_date)) :=
      List.Pairwise.sublist (List.filter_sublist _) hpw
    have hmonth : ∀ r ∈ latestActiveRows t, some r.month_date = maxMonth t := by
      intro r hr
      rw [latestActiveRows] at hr
      have := (List.mem_filter.mp hr).2
      simp only [Bool.and_eq_true, decide_eq_true_eq] at this
      exact this.1
    have hids : (latestActiveRows t).Pairwise (fun a b => a.id ≠ b.id) := by
      refine List.Pairwise.imp_of_mem ?_ hpA
      intro a b ha hb hR hid
      have hm : a.month_date = b.month_date :=
        Option.some.inj ((hmonth a ha).trans (hmonth b hb).symm)
      exact hR ⟨hid, hm⟩
    have hnd : ((latestActiveRows t).map (·.id)).Nodup := List.pairwise_map.mpr hids
    have hlast : (get_latest_snapshot t).active_customers = (latestActiveRows t).length := by
      show uniqueIds (latestActiveRows t) = _
      rw [uniqueIds, List.dedup_eq_self.mpr hnd, List.length_map]
    rw [hlast]

/-- Witness for `c9_revenue_by_geography`: on the key-unique table `tGeo`
the summed per-country unique-customer counts stay within the latest month's
active-customer count. -/
theorem c9_revenue_by_geography_witness :
    ((get_revenue_by_geography tGeo).map (·.unique_customers)).sum
      ≤ (get_latest_snapshot tGeo).active_customers :=
  c9_revenue_by_geography.2 tGeo (by norm_num [tGeo, mkRow, List.pairwise_cons])

/-- C6 (amended: with the output values rounded to 2 decimals, the identity
holds whenever every ARR value is exact in cents): for every month M present
in the base table, the `get_monthly_metrics` total ARR for M equals the sum
of the `get_arr_by_plan` total ARR values filtered to M. -/
theorem c6_arr_by_plan_partition :
    ∀ (t : Table), (∀ r ∈ t, centValued r.annual_recurring_revenue) →
      ∀ m ∈ monthsAsc t,
        (((get_arr_by_plan t).filter (fun g => decide (g.month_date = m))).map
          (·.total_arr)).sum = (monthlyMetricsRow t m).total_arr ∧
        monthlyMetricsRow t m ∈ get_monthly_metrics t := by
  intro t hc m hm
  have hcentS : ∀ p,
      centValued ((planRowsOfMonth t m p).map (·.annual_recurring_revenue)).sum := by
    intro p
    apply centValued_sum
    intro x hx
    obtain ⟨r, hr, rfl⟩ := List.mem_map.mp hx
    have hrt : r ∈ t := by
      have h1 := (List.mem_filter.mp (by rw [planRowsOfMonth] at hr; exact hr)).1
      have h2 := (List.mem_filter.mp (by rw [activeRowsOfMonth] at h1; exact h1)).1
      exact (List.mem_filter.mp (by rw [rowsOfMonth] at h2; exact h2)).1
    exact hc r hrt
  refine ⟨?_, List.mem_map_of_mem _ hm⟩
  have hnd : (monthsAsc t).Nodup := by
    rw [monthsAsc]
    exact ((perm_sortOrd _ _).nodup_iff).mpr (List.nodup_dedup _)
  have hkey : ∀ m' x, x ∈ arrByPlanMonth t m' → x.month_date = m' := by
    intro m' x hx
    obtain ⟨p, hp, rfl⟩ := List.mem_map.mp (by rw [arrByPlanMonth] at hx; exact hx)
    rfl
  have hcollapse := filter_flatMap_key (fun g : ArrByPlanRow => g.month_date)
    (arrByPlanMonth t) (monthsAsc t) hnd hkey m hm
  rw [get_arr_by_plan, hcollapse, arrByPlanMonth, List.map_map]
  have hfeq : ∀ p ∈ planOrder.filter (fun p => !(planRowsOfMonth t m p).isEmpty),
      ((·.total_arr) ∘ arrByPlanRowOf t m) p
        = ((planRowsOfMonth t m p).map (·.annual_recurring_revenue)).sum := by
    intro p _
    exact pgRound_two_of_centValued (hcentS p)
  rw [List.map_congr_left hfeq]
  have hzero : ∀ p ∈ planOrder, (!(planRowsOfMonth t m p).isEmpty) = false →
      ((planRowsOfMonth t m p).map (·.annual_recurring_revenue)).sum = 0 := by
    intro p _ hq
    have hnil : planRowsOfMonth t m p = [] := by
      cases hpl : planRowsOfMonth t m p with
      | nil => rfl
      | cons a l => rw [hpl] at hq; simp [List.isEmpty] at hq
    rw [hnil]
    simp
  rw [sum_filter_of_zero _ _ _ hzero]
  have hcent2 : centValued ((((rowsOfMonth t m).filter (·.is_active)).map
      (·.annual_recurring_revenue)).sum) := by
    apply centValued_sum
    intro x hx
    obtain ⟨r, hr, rfl⟩ := List.mem_map.mp hx
    have h2 := (List.mem_filter.mp hr).1
    exact hc r (List.mem_filter.mp (by rw [rowsOfMonth] at h2; exact h2)).1
  have hRHS : (monthlyMetricsRow t m).total_arr
      = (((rowsOfMonth t m).filter (·.is_active)).map (·.annual_recurring_revenue)).sum := by
    show pgRound ((rowsOfMonth t m).map
      (fun r => if r.is_active then r.annual_recurring_revenue else 0)).sum 2 = _
    rw [sum_map_ite_active]
    exact pgRound_two_of_centValued hcent2
  rw [hRHS]
  simp only [planRowsOfMonth, activeRowsOfMonth]
  exact sum_planOrder_filter ((rowsOfMonth t m).filter (·.is_active)) _

/-- C6 (counterexample to the claim as stated): with half-cent ARR values the
per-plan rounding differs from the total's rounding — on `tHalfCent` month 0
the monthly summary reports 0.01 while the plan breakdown rows sum to 0.02. -/
theorem c6_counterexample_half_cents :
    0 ∈ monthsAsc tHalfCent ∧
    (monthlyMetricsRow tHalfCent 0).total_arr = 1 / 100 ∧
    (((get_arr_by_plan tHalfCent).filter (fun g => decide (g.month_date = 0))).map
      (·.total_arr)).sum = 2 / 100 ∧
    ¬ ((2 : Rat) / 100 = 1 / 100) := by
  have hm : monthsAsc tHalfCent = [0] := by
    norm_num [monthsAsc, sortOrd, insertOrd, tHalfCent, mkRow]
  have hF : planRowsOfMonth tHalfCent 0 Plan.Free = [mkRow 1 0 true .Free (1/200) 0 0] := by
    simp [planRowsOfMonth, activeRowsOfMonth, rowsOfMonth, tHalfCent, mkRow]
  have hT : planRowsOfMonth tHalfCent 0 Plan.Trial = [mkRow 2 0 true .Trial (1/200) 0 0] := by
    simp [planRowsOfMonth, activeRowsOfMonth, rowsOfMonth, tHalfCent, mkRow]
  have hL : planRowsOfMonth tHalfCent 0 Plan.Low = [] := by
    simp [planRowsOfMonth, activeRowsOfMonth, rowsOfMonth, tHalfCent, mkRow]
  have hM : planRowsOfMonth tHalfCent 0 Plan.Middle = [] := by
    simp [planRowsOfMonth, activeRowsOfMonth, rowsOfMonth, tHalfCent, mkRow]
  have hTop : planRowsOfMonth tHalfCent 0 Plan.Top = [] := by
    simp [planRowsOfMonth, activeRowsOfMonth, rowsOfMonth, tHalfCent, mkRow]
  have hrowF : arrByPlanRowOf tHalfCent 0 Plan.Free = ⟨0, Plan.Free, 1, 1/100, 1/100⟩ := by
    rw [arrByPlanRowOf, hF]
    norm_num [uniqueIds, pgRound, ratFloor, mkRow]
  have hrowT : arrByPlanRowOf tHalfCent 0 Plan.Trial = ⟨0, Plan.Trial, 1, 1/100, 1/100⟩ := by
    rw [arrByPlanRowOf, hT]
    norm_num [uniqueIds, pgRound, ratFloor, mkRow]
  have hmonth : arrByPlanMonth tHalfCent 0
      = [⟨0, Plan.Free, 1, 1/100, 1/100⟩, ⟨0, Plan.Trial, 1, 1/100, 1/100⟩] := by
    simp [arrByPlanMonth, planOrder, hF, hT, hL, hM, hTop, hrowF, hrowT]
  have hflat : get_arr_by_plan tHalfCent = arrByPlanMonth tHalfCent 0 := by
    rw [get_arr_by_plan, hm]
    simp
  refine ⟨by rw [hm]; exact List.mem_singleton.mpr rfl, ?_, ?_, by norm_num⟩
  · norm_num [monthlyMetricsRow, rowsOfMonth, activeRowsOfMonth, uniqueIds, sqlAvg,
      pgRound, ratFloor, tHalfCent, mkRow]
  · rw [hflat, hmonth]
    norm_num

/-- Witness for `c6_arr_by_plan_partition`: on the cent-exact table `tCents`,
the plan breakdown of month 0 sums to the monthly total. -/
theorem c6_arr_by_plan_partition_witness :
    (((get_arr_by_plan tCents).filter (fun g => decide (g.month_date = 0))).map
      (·.total_arr)).sum = (monthlyMetricsRow tCents 0).total_arr :=
  (c6_arr_by_plan_partition tCents
    (by
      intro r hr
      simp only [tCents, List.mem_cons, List.not_mem_nil, or_false] at hr
      rcases hr with rfl | rfl
      · exact ⟨1000, by norm_num [mkRow]⟩
      · exact ⟨2050, by norm_num [mkRow]⟩)
    0 (by norm_num [monthsAsc, sortOrd, insertOrd, tCents, mkRow])).1

/-- C4 (amended): `get_high_opportunity_clients` groups the recent-6-months
rows that are active, on Free/Trial, and have `events_28d > 0` by
`(customer, plan, signup date)`; the window statistics are computed over
those qualifying rows only; groups with average > 500 are kept, ordered by
average descending, at most 15 of them. -/
theorem c4_high_opportunity_semantics :
    ∀ (t : Table),
      (∀ gr ∈ hocSelected t,
        500 < gr.avg_events ∧
        (gr.plan = Plan.Free ∨ gr.plan = Plan.Trial) ∧
        gr.avg_events = ((hocGroupRows t (gr.customer_id, gr.plan, gr.joined_date)).map
            (fun r => (r.events_28d : Rat))).sum /
          ((hocGroupRows t (gr.customer_id, gr.plan, gr.joined_date)).length : Rat) ∧
        (∀ r ∈ hocGroupRows t (gr.customer_id, gr.plan, gr.joined_date),
          r.month_date ∈ recentMonths 6 t ∧ r.is_active = true ∧ 0 < r.events_28d ∧
            (r.plan = Plan.Free ∨ r.plan = Plan.Trial))) ∧
      (hocSelected t).Pairwise (fun a b => b.avg_events ≤ a.avg_events) ∧
      (get_high_opportunity_clients t).length ≤ 15 := by
  intro t
  refine ⟨?_, ?_, ?_⟩
  · intro gr hgr
    have h1 : gr ∈ hocGroups t := mem_sortOrd.mp (List.take_subset _ _ hgr)
    rw [hocGroups] at h1
    obtain ⟨h2, h3⟩ := List.mem_filter.mp h1
    obtain ⟨k, hk, rfl⟩ := List.mem_map.mp h2
    obtain ⟨k1, k2, k3⟩ := k
    have havg := of_decide_eq_true h3
    obtain ⟨r0, hr0, hr0k⟩ := List.mem_map.mp (List.mem_dedup.mp (by
      rw [hocKeys] at hk; exact hk))
    have hplan : (hocGroupOf t (k1, k2, k3)).plan = Plan.Free ∨
        (hocGroupOf t (k1, k2, k3)).plan = Plan.Trial := by
      have hq := (List.mem_filter.mp (by rw [hocQual] at hr0; exact hr0)).2
      simp only [Bool.and_eq_true, Bool.or_eq_true, decide_eq_true_eq] at hq
      have : r0.plan = k2 := congrArg (fun x => x.2.1) hr0k
      rw [show (hocGroupOf t (k1, k2, k3)).plan = k2 from rfl, ← this]
      exact hq.1.2
    refine ⟨havg, hplan, rfl, ?_⟩
    intro r hr
    have hq := (List.mem_filter.mp (by
      have := (List.mem_filter.mp (by rw [hocGroupRows] at hr; exact hr)).1
      rw [hocQual] at this
      exact this)).2
    simp only [Bool.and_eq_true, Bool.or_eq_true, decide_eq_true_eq] at hq
    exact ⟨hq.1.1.1, hq.1.1.2, hq.2, hq.1.2⟩
  · have hs := @pairwise_sortOrd HocGroup
      (fun a b : HocGroup => decide (b.avg_events ≤ a.avg_events))
      (fun a b c h1 h2 => decide_eq_true
        (le_trans (of_decide_eq_true h2) (of_decide_eq_true h1)))
      (fun a b => by
        rcases le_total b.avg_events a.avg_events with h | h
        · exact Or.inl (decide_eq_true h)
        · exact Or.inr (decide_eq_true h))
      (hocGroups t)
    refine List.Pairwise.imp ?_ ((List.Pairwise.sublist (List.take_sublist _ _)) hs)
    intro a b hab
    exact of_decide_eq_true hab
  · simp only [get_high_opportunity_clients, hocSelected, List.length_map, List.length_take]
    exact Nat.min_le_left _ _

/-- Witness for `c4_high_opportunity_semantics`: the single qualifying group
of `tHocOne` has average events above 500. -/
theorem c4_high_opportunity_semantics_witness :
    (500 : Rat) < (HocGroup.mk 7 Plan.Free 0 600 600 1).avg_events := by
  have hmem : (HocGroup.mk 7 Plan.Free 0 600 600 1) ∈ hocSelected tHocOne := by
    have h : hocSelected tHocOne = [⟨7, Plan.Free, 0, 600, 600, 1⟩] := by
      norm_num [hocSelected, hocGroups, hocGroupOf, hocKeys, hocGroupRows, hocQual,
        recentMonths, monthsDesc, sortOrd, insertOrd, listMaxNat, tHocOne, mkRow]
    rw [h]
    exact List.mem_singleton.mpr rfl
  exact ((c4_high_opportunity_semantics tHocOne).1 _ hmem).1

end Sentry

